import Mathlib

/-!
Verification of the slot-reservation app (src/app.py): a Streamlit front end
over a SQLite table `reservas` with a UNIQUE(fecha, hora) constraint.

Shallow embedding conventions:
- Calendar dates are modelled as natural numbers (days); `date.isoformat()`
  is injective, so comparing ISO strings coincides with comparing days.
- A Python `datetime` is a point on the time line, modelled as its total
  number of minutes; `datetime.combine(d, t)` is `d * 1440 + t` and
  `dt.time()` is `dt % 1440`.  Comparison of datetimes is comparison of
  these totals, and `timedelta(minutes = k)` adds `k`.
- Python strings are compared lexicographically by code point; `pyLt` and
  `pyLe` embed `<` and `<=` on strings.
- Timestamps (`created_at`) are modelled as naturals: the claims only need
  that the stored value is the one the clock supplied at commit time.
-/

namespace Horario

/-- Python string `<` on char lists: lexicographic by code point. -/
def pyLtL : List Char → List Char → Bool
  | [], [] => false
  | [], _ :: _ => true
  | _ :: _, [] => false
  | a :: as, b :: bs =>
    if a.val < b.val then true
    else if b.val < a.val then false
    else pyLtL as bs

/-- Python string `<`. -/
def pyLt (a b : String) : Bool := pyLtL a.data b.data

/-- Python string `<=` (total order: `a <= b` iff not `b < a`). -/
def pyLe (a b : String) : Bool := !(pyLt b a)

-- Configuration constants of app.py, as minutes of the day:
-- INICIO = time(9, 0), FIN = time(18, 0),
-- BLOQUEO_INICIO = time(13, 0), BLOQUEO_FIN = time(14, 0), INTERVALO_MIN = 20.
def inicioMin : Nat := 9 * 60
def finMin : Nat := 18 * 60
def bloqueoIniMin : Nat := 13 * 60
def bloqueoFinMin : Nat := 14 * 60
def INTERVALO_MIN : Nat := 20

/-- Zero-padded two-digit rendering, as strftime does for %H and %M. -/
def pad2 (n : Nat) : String := if n < 10 then "0" ++ toString n else toString n

/-- `h.strftime("%H:%M")` for a time of day given in minutes. -/
def timeLabel (m : Nat) : String := pad2 (m / 60) ++ ":" ++ pad2 (m % 60)

/-- The while-loop of `generar_slots`: `t` and `fin` are datetimes in total
minutes; while `t <= fin`, append `t.time().strftime("%H:%M")` unless the
time of day lies in `[BLOQUEO_INICIO, BLOQUEO_FIN)`, then step 20 minutes.
The loop is embedded with a fuel argument; `generar_slots` supplies
`fin + 1 - t` fuel, which bounds the number of iterations since each
iteration moves `t` forward by 20 ≥ 1 minutes. -/
def slotsLoopF : Nat → Nat → Nat → List String
  | 0, _, _ => []
  | fuel + 1, t, fin =>
    if t ≤ fin then
      if bloqueoIniMin ≤ t % 1440 ∧ t % 1440 < bloqueoFinMin then
        slotsLoopF fuel (t + INTERVALO_MIN) fin
      else
        timeLabel (t % 1440) :: slotsLoopF fuel (t + INTERVALO_MIN) fin
    else []

/-- `generar_slots(d)` from app.py: build the slot labels for date `d`
(days since the epoch), then keep those `<= FIN.strftime("%H:%M")`. -/
def generar_slots (d : Nat) : List String :=
  let t0 := d * 1440 + inicioMin
  let finDt := d * 1440 + finMin
  (slotsLoopF (finDt + 1 - t0) t0 finDt).filter (fun s => pyLe s (timeLabel finMin))

/-- The 25 labels generar_slots produces for every date. -/
def slotsEsperados : List String :=
  ["09:00", "09:20", "09:40", "10:00", "10:20", "10:40",
   "11:00", "11:20", "11:40", "12:00", "12:20", "12:40",
   "14:00", "14:20", "14:40", "15:00", "15:20", "15:40",
   "16:00", "16:20", "16:40", "17:00", "17:20", "17:40", "18:00"]

/-- Shifting both cursor and end of the loop by whole days does not change
the labels produced, as long as the end lies inside the first day: the loop
only looks at `t % 1440` and at `t ≤ fin`. -/
theorem slotsLoopF_shift (d : Nat) :
    ∀ fuel u v, v < 1440 →
      slotsLoopF fuel (d * 1440 + u) (d * 1440 + v) = slotsLoopF fuel u v := by
  intro fuel
  induction fuel with
  | zero => intro u v _; rfl
  | succ n ih =>
    intro u v hv
    simp only [slotsLoopF]
    by_cases h : u ≤ v
    · rw [if_pos (by omega : d * 1440 + u ≤ d * 1440 + v), if_pos h]
      have hmod : (d * 1440 + u) % 1440 = u % 1440 := by omega
      rw [hmod, Nat.add_assoc]
      by_cases hb : bloqueoIniMin ≤ u % 1440 ∧ u % 1440 < bloqueoFinMin
      · rw [if_pos hb, if_pos hb, ih (u + INTERVALO_MIN) v hv]
      · rw [if_neg hb, if_neg hb, ih (u + INTERVALO_MIN) v hv]
    · rw [if_neg (by omega : ¬ d * 1440 + u ≤ d * 1440 + v), if_neg h]

/-- `generar_slots` does not depend on its date argument. -/
theorem generar_slots_eq_zero (d : Nat) : generar_slots d = generar_slots 0 := by
  simp only [generar_slots]
  have h1 : d * 1440 + finMin + 1 - (d * 1440 + inicioMin) = finMin + 1 - inicioMin := by
    omega
  have h2 : d * 1440 + finMin + 1 - (d * 1440 + inicioMin)
      = 0 * 1440 + finMin + 1 - (0 * 1440 + inicioMin) := by omega
  rw [h2]
  have h3 := slotsLoopF_shift d (0 * 1440 + finMin + 1 - (0 * 1440 + inicioMin))
    inicioMin finMin (by decide)
  simp only [Nat.zero_mul, Nat.zero_add] at h3 ⊢
  rw [h3]

/-- Concrete value of the generator, for every date. -/
theorem generar_slots_eq (d : Nat) : generar_slots d = slotsEsperados := by
  rw [generar_slots_eq_zero]
  decide

/-- C5: with the default configuration (window 09:00-18:00, blackout
13:00-14:00, granularity 20 minutes), for every date the generated labels
are exactly `slotsEsperados`, which drops 13:00, 13:20 and 13:40 of the
blackout hour and keeps 12:40, 14:00 and the end boundary 18:00. -/
theorem generar_slots_scenario_A (d : Nat) :
    generar_slots d = slotsEsperados ∧
    "13:00" ∉ generar_slots d ∧ "13:20" ∉ generar_slots d ∧
    "13:40" ∉ generar_slots d ∧
    "12:40" ∈ generar_slots d ∧ "14:00" ∈ generar_slots d ∧
    "18:00" ∈ generar_slots d := by
  refine ⟨generar_slots_eq d, ?_⟩
  rw [generar_slots_eq]
  decide

/-- C6: for every date the generator returns a strictly increasing (in the
code-point order on strings the code compares labels with), duplicate-free
sequence, none of whose labels lies in the half-open blackout interval
13:00 ≤ label < 14:00. -/
theorem generar_slots_sorted_blackout_free (d : Nat) :
    List.Pairwise (fun a b => pyLt a b = true) (generar_slots d) ∧
    (generar_slots d).Nodup ∧
    ∀ s ∈ generar_slots d, ¬ (pyLe "13:00" s = true ∧ pyLt s "14:00" = true) := by
  rw [generar_slots_eq]
  decide

/-- C10: the generator ignores its date argument — every two dates give the
same list, the fixed 25-label sequence from 09:00 to 18:00. -/
theorem generar_slots_date_independent (d1 d2 : Nat) :
    generar_slots d1 = generar_slots d2 ∧
    generar_slots d1 = slotsEsperados ∧
    slotsEsperados.length = 25 := by
  refine ⟨?_, generar_slots_eq d1, by decide⟩
  rw [generar_slots_eq d1, generar_slots_eq d2]

/-- A row of the `reservas` table (the AUTOINCREMENT id is the list
position and is not part of any claim). -/
structure Reserva where
  fecha : Nat
  hora : String
  nombre : String
  contacto : String
  comentario : String
  created_at : Nat
deriving DecidableEq

/-- Whether a row with key `(fecha, hora)` exists: the situation in which
the UNIQUE(fecha, hora) constraint makes an INSERT raise IntegrityError. -/
def usedKey (s : List Reserva) (fecha : Nat) (hora : String) : Bool :=
  s.any (fun r => r.fecha == fecha && r.hora == hora)

/-- `agregar_reserva` from app.py: the INSERT commits and returns True when
the key is free; on a UNIQUE violation the transaction context manager
rolls back, nothing is written and the function returns False.
`now` is the value of `datetime.now().isoformat(timespec="seconds")`. -/
def agregar_reserva (now : Nat) (s : List Reserva)
    (fecha : Nat) (hora nombre contacto comentario : String) : Bool × List Reserva :=
  if usedKey s fecha hora then (false, s)
  else (true, s ++ [⟨fecha, hora, nombre, contacto, comentario, now⟩])

/-- The DELETE statement of `borrar_reservas_dia`, on the table alone. -/
def borrarDb (s : List Reserva) (fecha : Nat) : List Reserva :=
  s.filter (fun r => !(r.fecha == fecha))

/-- The SELECT of `leer_reservas_dia`: rows WHERE fecha = ?. -/
def queryDia (s : List Reserva) (fecha : Nat) : List Reserva :=
  s.filter (fun r => r.fecha == fecha)

/-- SQL ORDER BY (fecha, hora) comparison used by `leer_todas_reservas`. -/
def claveLe (a b : Reserva) : Bool :=
  decide (a.fecha < b.fecha) || (a.fecha == b.fecha && pyLe a.hora b.hora)

def insertarOrd (r : Reserva) : List Reserva → List Reserva
  | [] => [r]
  | x :: xs => if claveLe r x then r :: x :: xs else x :: insertarOrd r xs

/-- The SELECT ... ORDER BY fecha, hora of `leer_todas_reservas`. -/
def queryTodas : List Reserva → List Reserva
  | [] => []
  | x :: xs => insertarOrd x (queryTodas xs)

/-- `(date, slot)` is unique across all rows: the UNIQUE(fecha, hora)
constraint of the table. -/
def UniqueKeys (s : List Reserva) : Prop :=
  List.Pairwise (fun a b => ¬(a.fecha = b.fecha ∧ a.hora = b.hora)) s

theorem usedKey_eq_false_iff (s : List Reserva) (f : Nat) (h : String) :
    usedKey s f h = false ↔ ∀ r ∈ s, ¬(r.fecha = f ∧ r.hora = h) := by
  simp [usedKey, List.any_eq_true, not_and, Decidable.not_imp_not]

theorem UniqueKeys_agregar (now : Nat) (s : List Reserva)
    (f : Nat) (ho n c com : String) (hs : UniqueKeys s) :
    UniqueKeys (agregar_reserva now s f ho n c com).2 := by
  unfold agregar_reserva
  by_cases hk : usedKey s f ho
  · simp [hk, hs]
  · simp only [hk, Bool.false_eq_true, if_false, if_neg]
    rw [Bool.not_eq_true] at hk
    simp only [UniqueKeys, List.pairwise_append]
    refine ⟨hs, List.pairwise_singleton _ _, ?_⟩
    intro a ha b hb
    simp only [List.mem_singleton] at hb
    subst hb
    exact (usedKey_eq_false_iff s f ho).mp hk a ha

theorem UniqueKeys_borrarDb (s : List Reserva) (f : Nat) (hs : UniqueKeys s) :
    UniqueKeys (borrarDb s f) :=
  List.Pairwise.sublist (List.filter_sublist s) hs

/-- Table contents reachable from the fresh (empty) table through the two
store operations of app.py: `agregar_reserva` with arbitrary arguments and
the DELETE of `borrar_reservas_dia`. -/
inductive StoreReachable : List Reserva → Prop
  | empty : StoreReachable []
  | insert (s : List Reserva) (now f : Nat) (ho n c com : String) :
      StoreReachable s → StoreReachable (agregar_reserva now s f ho n c com).2
  | delete (s : List Reserva) (f : Nat) :
      StoreReachable s → StoreReachable (borrarDb s f)

theorem StoreReachable_unique {s : List Reserva} (hr : StoreReachable s) :
    UniqueKeys s := by
  induction hr with
  | empty => exact List.Pairwise.nil
  | insert s now f ho n c com _ ih => exact UniqueKeys_agregar now s f ho n c com ih
  | delete s f _ ih => exact UniqueKeys_borrarDb s f ih

/-- C1: every reachable table state has pairwise distinct (fecha, hora)
keys, and both store operations preserve this uniqueness invariant. -/
theorem reachable_unique_keys (s : List Reserva) (hr : StoreReachable s) :
    UniqueKeys s ∧
    (∀ now f ho n c com, UniqueKeys (agregar_reserva now s f ho n c com).2) ∧
    (∀ f, UniqueKeys (borrarDb s f)) := by
  have hs := StoreReachable_unique hr
  exact ⟨hs, fun now f ho n c com => UniqueKeys_agregar now s f ho n c com hs,
    fun f => UniqueKeys_borrarDb s f hs⟩

/-- Witness for C1 at the empty table and one concrete insert. -/
theorem reachable_unique_keys_witness :
    UniqueKeys ((agregar_reserva 5 [] 0 "09:00" "Ana" "" "").2) :=
  (reachable_unique_keys [] StoreReachable.empty).2.1 5 0 "09:00" "Ana" "" ""

/-- C2: an insert commits (returns True) exactly when no row with the same
(fecha, hora) key exists; on commit the new row, stamped with the clock
value `now`, is appended and nothing else changes; on conflict the table is
left exactly as it was. -/
theorem agregar_reserva_spec (now : Nat) (s : List Reserva)
    (f : Nat) (ho n c com : String) :
    ((agregar_reserva now s f ho n c com).1 = true ↔
      ¬ ∃ r ∈ s, r.fecha = f ∧ r.hora = ho) ∧
    ((agregar_reserva now s f ho n c com).1 = true →
      (agregar_reserva now s f ho n c com).2
        = s ++ [⟨f, ho, n, c, com, now⟩]) ∧
    ((agregar_reserva now s f ho n c com).1 = false →
      (agregar_reserva now s f ho n c com).2 = s) := by
  unfold agregar_reserva
  by_cases hk : usedKey s f ho
  · simp only [hk, if_true]
    refine ⟨?_, by simp, by simp⟩
    simpa [usedKey, List.any_eq_true, not_not] using hk
  · rw [Bool.not_eq_true] at hk
    simp only [hk, Bool.false_eq_true, if_false]
    refine ⟨?_, by simp, by simp⟩
    have hno : ¬ ∃ r ∈ s, r.fecha = f ∧ r.hora = ho := by
      intro ⟨r, hrs, hrf, hrh⟩
      exact (usedKey_eq_false_iff s f ho).mp hk r hrs ⟨hrf, hrh⟩
    simpa using hno

/-- Witness for C2: inserting into the empty table at concrete arguments. -/
theorem agregar_reserva_spec_witness :
    (agregar_reserva 3 [] 0 "09:00" "Ana" "c" "x").2
      = [⟨0, "09:00", "Ana", "c", "x", 3⟩] :=
  (agregar_reserva_spec 3 [] 0 "09:00" "Ana" "c" "x").2.1 (by decide)

/-- The caller-supplied part of one insert attempt (its holder name,
optional fields and the clock value at its commit). -/
structure Solicitud where
  nombre : String
  contacto : String
  comentario : String
  now : Nat
deriving DecidableEq

/-- One serialization of any number of concurrent `agregar_reserva` calls
for the one key `(f, ho)`: SQLite serializes writers, so a concurrent
execution is some order in which the inserts hit the table one by one.
Returns the outcomes in that order and the final table. -/
def runInserts (f : Nat) (ho : String) :
    List Reserva → List Solicitud → List Bool × List Reserva
  | s, [] => ([], s)
  | s, q :: qs =>
    let p := agregar_reserva q.now s f ho q.nombre q.contacto q.comentario
    let rest := runInserts f ho p.2 qs
    (p.1 :: rest.1, rest.2)

theorem runInserts_used (f : Nat) (ho : String) (qs : List Solicitud)
    (s : List Reserva) (hk : usedKey s f ho = true) :
    (runInserts f ho s qs).1 = List.replicate qs.length false ∧
    (runInserts f ho s qs).2 = s := by
  induction qs with
  | nil => simp [runInserts]
  | cons q qs ih =>
    simp only [runInserts, agregar_reserva, hk, if_true]
    simpa [List.replicate_succ] using ih

theorem usedKey_append_self (s : List Reserva) (f : Nat) (ho : String)
    (r : Reserva) (hrf : r.fecha = f) (hrh : r.hora = ho) :
    usedKey (s ++ [r]) f ho = true := by
  simp [usedKey, List.any_eq_true]
  exact Or.inr ⟨hrf, hrh⟩

/-- C3: for a fixed (date, slot) key that is still free, any serialization
of any positive number of concurrent insert calls for that key commits
exactly once; every other call observes the conflict (returns False). -/
theorem runInserts_exactly_one_commit (s : List Reserva) (f : Nat)
    (ho : String) (qs : List Solicitud)
    (hfree : usedKey s f ho = false) (hne : qs ≠ []) :
    (runInserts f ho s qs).1.count true = 1 ∧
    (runInserts f ho s qs).1.count false = qs.length - 1 ∧
    (runInserts f ho s qs).1.length = qs.length := by
  cases qs with
  | nil => exact absurd rfl hne
  | cons q qs =>
    simp only [runInserts, agregar_reserva, hfree, Bool.false_eq_true, if_false]
    have hused := usedKey_append_self s f ho
      ⟨f, ho, q.nombre, q.contacto, q.comentario, q.now⟩ rfl rfl
    have hrest := runInserts_used f ho qs _ hused
    rw [hrest.1]
    simp [List.count_replicate]

/-- Witness for C3: two racing inserts for slot 09:00 of date 0 against the
empty table — one commits, the other conflicts. -/
theorem runInserts_exactly_one_commit_witness :
    (runInserts 0 "09:00" []
      [⟨"Ana", "", "", 1⟩, ⟨"Berta", "", "", 2⟩]).1.count true = 1 ∧
    (runInserts 0 "09:00" []
      [⟨"Ana", "", "", 1⟩, ⟨"Berta", "", "", 2⟩]).1.count false = 1 :=
  have h := runInserts_exactly_one_commit [] 0 "09:00"
    [⟨"Ana", "", "", 1⟩, ⟨"Berta", "", "", 2⟩] (by decide) (by decide)
  ⟨h.1, h.2.1⟩

/-- `ocupadas` of app.py: the slot labels of the day's rows
(`set(df_dia["hora"].tolist())`, used only through membership). -/
def ocupadas (s : List Reserva) (fecha : Nat) : List String :=
  (queryDia s fecha).map (fun r => r.hora)

/-- `disponibles` of app.py:
`[s for s in todos_slots if s not in ocupadas]`. -/
def disponibles (s : List Reserva) (fecha : Nat) : List String :=
  (generar_slots fecha).filter (fun sl => !((ocupadas s fecha).contains sl))

/-- Table contents the app itself can produce: commits coming from the
booking form choose the slot from the rendered `disponibles` list, which is
a sublist of `generar_slots fecha`, so every committed `hora` is a
generated label for its date; deletes are unrestricted. -/
inductive AppReachable : List Reserva → Prop
  | empty : AppReachable []
  | commit (s : List Reserva) (now f : Nat) (ho n c com : String) :
      AppReachable s → ho ∈ generar_slots f →
      AppReachable (agregar_reserva now s f ho n c com).2
  | delete (s : List Reserva) (f : Nat) :
      AppReachable s → AppReachable (borrarDb s f)

theorem AppReachable_horas {s : List Reserva} (hr : AppReachable s) :
    ∀ r ∈ s, r.hora ∈ generar_slots r.fecha := by
  induction hr with
  | empty => simp
  | commit s now f ho n c com _ hmem ih =>
    unfold agregar_reserva
    by_cases hk : usedKey s f ho
    · simpa [hk] using ih
    · simp only [hk, Bool.false_eq_true, if_false]
      intro r hr
      rcases List.mem_append.mp hr with h | h
      · exact ih r h
      · simp only [List.mem_singleton] at h
        subst h
        simpa using hmem
  | delete s f _ ih =>
    intro r hr
    exact ih r (List.mem_of_mem_filter hr)

theorem mem_disponibles (s : List Reserva) (f : Nat) (x : String) :
    x ∈ disponibles s f ↔ x ∈ generar_slots f ∧ x ∉ ocupadas s f := by
  simp [disponibles, List.mem_filter]

theorem mem_ocupadas_sub {s : List Reserva} (hr : AppReachable s) (f : Nat) :
    ∀ x ∈ ocupadas s f, x ∈ generar_slots f := by
  intro x hx
  simp only [ocupadas, queryDia, List.mem_map, List.mem_filter] at hx
  obtain ⟨r, ⟨hrs, hrf⟩, hx⟩ := hx
  subst hx
  rw [beq_iff_eq] at hrf
  rw [← hrf]
  exact AppReachable_horas hr r hrs

/-- C4: in every table state the app can produce, for every date the pair
(`disponibles`, `ocupadas`) is a partition of the generated slots: their
union is exactly `generar_slots fecha` and they are disjoint. -/
theorem availability_partition (s : List Reserva) (hr : AppReachable s)
    (f : Nat) (x : String) :
    ((x ∈ disponibles s f ∨ x ∈ ocupadas s f) ↔ x ∈ generar_slots f) ∧
    ¬ (x ∈ disponibles s f ∧ x ∈ ocupadas s f) := by
  constructor
  · constructor
    · rintro (h | h)
      · exact ((mem_disponibles s f x).mp h).1
      · exact mem_ocupadas_sub hr f x h
    · intro h
      by_cases ho : x ∈ ocupadas s f
      · exact Or.inr ho
      · exact Or.inl ((mem_disponibles s f x).mpr ⟨h, ho⟩)
  · intro ⟨hd, ho⟩
    exact ((mem_disponibles s f x).mp hd).2 ho

/-- Witness for C4 at the empty table, date 0, label 09:00. -/
theorem availability_partition_witness :
    (("09:00" ∈ disponibles [] 0 ∨ "09:00" ∈ ocupadas [] 0) ↔
      "09:00" ∈ generar_slots 0) ∧
    ¬ ("09:00" ∈ disponibles [] 0 ∧ "09:00" ∈ ocupadas [] 0) :=
  availability_partition [] AppReachable.empty 0 "09:00"

/-- The process state: the table plus the two `st.cache_data` caches.
`cacheDia` memoizes `leer_reservas_dia` per date argument, `cacheTodas`
memoizes the argumentless `leer_todas_reservas`. -/
structure AppState where
  db : List Reserva
  cacheDia : Nat → Option (List Reserva)
  cacheTodas : Option (List Reserva)

/-- `leer_reservas_dia` with its `@st.cache_data` decorator: a hit returns
the cached rows (possibly stale), a miss queries the table and fills the
cache entry for that date. -/
def leer_reservas_dia (st : AppState) (fecha : Nat) :
    List Reserva × AppState :=
  match st.cacheDia fecha with
  | some v => (v, st)
  | none =>
    let v := queryDia st.db fecha
    (v, { st with cacheDia := fun x => if x = fecha then some v else st.cacheDia x })

/-- `leer_todas_reservas` with its `@st.cache_data` decorator. -/
def leer_todas_reservas (st : AppState) : List Reserva × AppState :=
  match st.cacheTodas with
  | some v => (v, st)
  | none => (queryTodas st.db, { st with cacheTodas := some (queryTodas st.db) })

/-- `borrar_reservas_dia` from app.py: DELETE the date's rows, then
`leer_reservas_dia.clear()` and `leer_todas_reservas.clear()` (clearing a
`st.cache_data` cache drops every memoized entry). -/
def borrar_reservas_dia (st : AppState) (fecha : Nat) : AppState :=
  { db := borrarDb st.db fecha, cacheDia := fun _ => none, cacheTodas := none }

/-- Python whitespace for `str.strip()`: space, tab, newline, carriage
return, vertical tab and form feed. -/
def pySpace (c : Char) : Bool :=
  c == ' ' || c == '\t' || c == '\n' || c == '\r' || c == '\x0b' || c == '\x0c'

/-- Python `s.strip()`: drop leading and trailing whitespace. -/
def pyStrip (s : String) : String :=
  ⟨((s.data.dropWhile pySpace).reverse.dropWhile pySpace).reverse⟩

/-- Outcomes of one submit of the booking form, one per UI message. -/
inductive Outcome where
  | warnNoSlot
  | warnNoName
  | success
  | conflict
deriving DecidableEq

/-- Python truthiness test `not slot` on the selectbox value: `None` and
the empty string are falsy. -/
def pyFalsy : Option String → Bool
  | none => true
  | some s => s == ""

/-- The submit handler of the `form_reserva` form (app.py lines 215-227):
warn when no slot is selected; warn when the name is empty after strip;
otherwise call `agregar_reserva` on the stripped inputs — on success clear
the per-date cache and re-read the day (repopulating that cache entry), on
failure report the conflict and touch nothing. -/
def form_submit (now : Nat) (st : AppState) (fecha : Nat)
    (slot : Option String) (nombre contacto comentario : String) :
    Outcome × AppState :=
  if pyFalsy slot then (Outcome.warnNoSlot, st)
  else if pyStrip nombre == "" then (Outcome.warnNoName, st)
  else
    let p := agregar_reserva now st.db fecha (slot.getD "")
      (pyStrip nombre) (pyStrip contacto) (pyStrip comentario)
    if p.1 then
      let st1 : AppState := { st with db := p.2, cacheDia := fun _ => none }
      (Outcome.success, (leer_reservas_dia st1 fecha).2)
    else (Outcome.conflict, { st with db := p.2 })

/-- C8: a submission with no slot selected, or whose holder name is empty
after stripping whitespace, only raises the matching warning: no record is
created and table and caches are exactly as before. -/
theorem form_submit_validation (now : Nat) (st : AppState) (fecha : Nat)
    (slot : Option String) (nombre contacto comentario : String)
    (h : pyFalsy slot = true ∨ pyStrip nombre = "") :
    ((form_submit now st fecha slot nombre contacto comentario).1
        = Outcome.warnNoSlot ∨
      (form_submit now st fecha slot nombre contacto comentario).1
        = Outcome.warnNoName) ∧
    (form_submit now st fecha slot nombre contacto comentario).2 = st := by
  unfold form_submit
  by_cases hs : pyFalsy slot
  · simp [hs]
  · rcases h with h | h
    · exact absurd h hs
    · simp [hs, h]

/-- Witness for C8: a blank name with a valid slot selected. -/
theorem form_submit_validation_witness :
    ((form_submit 1 ⟨[], fun _ => none, none⟩ 0 (some "09:00") "   " "" "").1
        = Outcome.warnNoSlot ∨
      (form_submit 1 ⟨[], fun _ => none, none⟩ 0 (some "09:00") "   " "" "").1
        = Outcome.warnNoName) ∧
    (form_submit 1 ⟨[], fun _ => none, none⟩ 0 (some "09:00") "   " "" "").2
      = ⟨[], fun _ => none, none⟩ :=
  form_submit_validation 1 ⟨[], fun _ => none, none⟩ 0 (some "09:00")
    "   " "" "" (Or.inr rfl)

/-- C9 as stated is false: the handler never re-checks that the submitted
slot is in the current `disponibles` list. Here slot 09:00 of date 0 is
already taken, so it is not in `disponibles`, yet the submission is not
rejected as input validation — it reaches the store and comes back as the
conflict outcome. -/
theorem no_revalidation_counterexample :
    "09:00" ∉ disponibles [⟨0, "09:00", "Bob", "", "", 1⟩] 0 ∧
    (form_submit 7 ⟨[⟨0, "09:00", "Bob", "", "", 1⟩], fun _ => none, none⟩ 0
        (some "09:00") "Ana" "" "").1 = Outcome.conflict := by
  constructor
  · decide
  · rfl

/-- C9 amended: at commit time the handler validates only that some slot
was selected and the name is non-blank; a stale slot whose key is already
taken is passed to the store, rejected there by the uniqueness constraint,
and reported as the race-lost conflict outcome (distinct from the two
input-validation warnings), with the whole state unchanged. -/
theorem form_submit_no_revalidation (now : Nat) (st : AppState) (fecha : Nat)
    (sl nombre contacto comentario : String)
    (hsl : sl ≠ "") (hn : pyStrip nombre ≠ "")
    (hk : usedKey st.db fecha sl = true) :
    (form_submit now st fecha (some sl) nombre contacto comentario).1
      = Outcome.conflict ∧
    (form_submit now st fecha (some sl) nombre contacto comentario).2 = st := by
  unfold form_submit
  have h1 : pyFalsy (some sl) = false := by simp [pyFalsy, hsl]
  have h2 : (pyStrip nombre == "") = false := beq_eq_false_iff_ne.mpr hn
  simp only [h1, Bool.false_eq_true, if_false, h2]
  simp only [agregar_reserva, hk, if_true, Option.getD_some]
  exact ⟨rfl, rfl⟩

/-- Witness for C9's amended statement at a concrete taken slot. -/
theorem form_submit_no_revalidation_witness :
    (form_submit 8 ⟨[⟨0, "10:00", "Bob", "", "", 1⟩], fun _ => none, none⟩ 0
        (some "10:00") "Eva" "" "").1 = Outcome.conflict ∧
    (form_submit 8 ⟨[⟨0, "10:00", "Bob", "", "", 1⟩], fun _ => none, none⟩ 0
        (some "10:00") "Eva" "" "").2
      = ⟨[⟨0, "10:00", "Bob", "", "", 1⟩], fun _ => none, none⟩ :=
  form_submit_no_revalidation 8
    ⟨[⟨0, "10:00", "Bob", "", "", 1⟩], fun _ => none, none⟩ 0
    "10:00" "Eva" "" "" (by decide) (by decide) (by decide)

/-- C7 as stated is false: after a successful insert only the per-date
cache is cleared (app.py line 224); `leer_todas_reservas` keeps its old
entry. Concretely: starting with the all-records cache holding the empty
pre-insert answer, a successful commit leaves that stale entry in place, so
the next all-records read still returns no rows though the table has one. -/
theorem cache_not_invalidated_counterexample :
    (form_submit 9 ⟨[], fun _ => none, some []⟩ 0
        (some "09:00") "Ana" "" "").1 = Outcome.success ∧
    (form_submit 9 ⟨[], fun _ => none, some []⟩ 0
        (some "09:00") "Ana" "" "").2.db = [⟨0, "09:00", "Ana", "", "", 9⟩] ∧
    (form_submit 9 ⟨[], fun _ => none, some []⟩ 0
        (some "09:00") "Ana" "" "").2.cacheTodas = some [] ∧
    (leer_todas_reservas (form_submit 9 ⟨[], fun _ => none, some []⟩ 0
        (some "09:00") "Ana" "" "").2).1 = [] ∧
    queryTodas (form_submit 9 ⟨[], fun _ => none, some []⟩ 0
        (some "09:00") "Ana" "" "").2.db = [⟨0, "09:00", "Ana", "", "", 9⟩] :=
  ⟨rfl, rfl, rfl, rfl, rfl⟩

/-- C7 amended: `borrar_reservas_dia` invalidates both caches; a successful
form commit synchronously invalidates only the per-date cache — every entry
it leaves there agrees with the new table — while the all-records cache is
left untouched (and can therefore serve stale data). -/
theorem cache_invalidation_amended (now : Nat) (st : AppState) (fecha : Nat)
    (slot : Option String) (nombre contacto comentario : String) :
    (∀ f, (borrar_reservas_dia st fecha).cacheDia f = none) ∧
    (borrar_reservas_dia st fecha).cacheTodas = none ∧
    ((form_submit now st fecha slot nombre contacto comentario).1
        = Outcome.success →
      (∀ f v,
        (form_submit now st fecha slot nombre contacto comentario).2.cacheDia f
          = some v →
        v = queryDia
          (form_submit now st fecha slot nombre contacto comentario).2.db f) ∧
      (form_submit now st fecha slot nombre contacto comentario).2.cacheTodas
        = st.cacheTodas) := by
  refine ⟨fun f => rfl, rfl, ?_⟩
  unfold form_submit
  by_cases h1 : pyFalsy slot
  · simp [h1]
  · simp only [h1, Bool.false_eq_true, if_false]
    by_cases h2 : (pyStrip nombre == "") = true
    · simp [h2]
    · rw [Bool.not_eq_true] at h2
      simp only [h2, Bool.false_eq_true, if_false]
      by_cases h3 : (agregar_reserva now st.db fecha (slot.getD "")
          (pyStrip nombre) (pyStrip contacto) (pyStrip comentario)).1 = true
      · simp only [h3, if_true]
        intro _
        constructor
        · intro f v hv
          simp only [leer_reservas_dia] at hv ⊢
          by_cases hf : f = fecha
          · subst hf
            simp only [if_pos rfl] at hv
            cases hv
            rfl
          · simp only [if_neg hf] at hv
            cases hv
        · rfl
      · rw [Bool.not_eq_true] at h3
        simp [h3]

/-- Witness for C7's amended statement: a concrete successful commit whose
all-records cache entry survives unchanged. -/
theorem cache_invalidation_amended_witness :
    (form_submit 9 ⟨[], fun _ => none, some []⟩ 0
        (some "09:00") "Ana" "" "").2.cacheTodas
      = (⟨[], fun _ => none, some []⟩ : AppState).cacheTodas :=
  ((cache_invalidation_amended 9 ⟨[], fun _ => none, some []⟩ 0
      (some "09:00") "Ana" "" "").2.2 rfl).2

end Horario
